import Mathlib

/-!
Verification of the Code Atlas frontend core: the job-progress polling
controller (JobProgress.tsx), the tree search filter and highlighter
(TreeNode.tsx), the expansion-state toggle (RepoExplorer.tsx) and the
top-level orchestrator (RepoAnalyzer.tsx), embedded shallowly in Lean.
JS strings are modelled as `List Char`; JS numbers that hold a progress
fraction are modelled as `ℚ`; fallible HTTP requests are modelled by an
explicit result type.
-/

set_option maxHeartbeats 1000000

namespace CodeAtlas

/-- JS `s.toLowerCase()` on a string modelled as `List Char`. -/
def lower (s : List Char) : List Char := s.map Char.toLower

/-- JS `hay.includes(needle)`: `needle` occurs as a contiguous substring of
`hay` (some tail of `hay` starts with `needle`). -/
def includesSub (hay needle : List Char) : Bool :=
  hay.tails.any (fun t => needle.isPrefixOf t)

/-- The case-insensitive substring predicate
`text.toLowerCase().includes(query.toLowerCase())` used by the search filter
in TreeNode.tsx on both `name` and `summary`. -/
def textMatches (query text : List Char) : Bool :=
  includesSub (lower text) (lower query)

/-- The `RepoTree` interface of TreeNode.tsx: `path`, `name`, `type`,
optional `language`, `size`, `summary`, and optional `children` (a directory
may carry an empty list; a node may also lack the field entirely, which
`Option` models as `none`). -/
inductive RepoTree : Type where
  | mk (path name type : List Char) (language : Option (List Char))
       (size : Option Nat) (summary : Option (List Char))
       (children : Option (List RepoTree))

def RepoTree.path : RepoTree → List Char
  | .mk p _ _ _ _ _ _ => p

def RepoTree.name : RepoTree → List Char
  | .mk _ n _ _ _ _ _ => n

def RepoTree.type : RepoTree → List Char
  | .mk _ _ ty _ _ _ _ => ty

def RepoTree.summary : RepoTree → Option (List Char)
  | .mk _ _ _ _ _ su _ => su

def RepoTree.children : RepoTree → Option (List RepoTree)
  | .mk _ _ _ _ _ _ cs => cs

/-- The two self-match clauses of the filter in TreeNode.tsx lines 46-47:
`child.name.toLowerCase().includes(q.toLowerCase()) ||
 child.summary?.toLowerCase().includes(q.toLowerCase())`
(an absent summary contributes `false` via optional chaining). -/
def selfMatch (searchQuery : List Char) (child : RepoTree) : Bool :=
  textMatches searchQuery child.name
  || (match child.summary with
      | some s => textMatches searchQuery s
      | none => false)

mutual

/-- Function `hasMatchingDescendant(node, searchQuery)` from TreeNode.tsx lines
210-218: `false` when the `children` field is absent, otherwise
`node.children.some(child => name-match || summary-match || recurse)`. -/
def hasMatchingDescendant : RepoTree → List Char → Bool
  | .mk _ _ _ _ _ _ none, _ => false
  | .mk _ _ _ _ _ _ (some cs), searchQuery => anyMatchingChild cs searchQuery

/-- The `Array.prototype.some` traversal inside `hasMatchingDescendant`. -/
def anyMatchingChild : List RepoTree → List Char → Bool
  | [], _ => false
  | c :: cs, searchQuery =>
    (selfMatch searchQuery c || hasMatchingDescendant c searchQuery)
    || anyMatchingChild cs searchQuery

end

/-- The filter predicate of `node.children?.filter(...)` in TreeNode.tsx
lines 44-49.  Note the JS guard `child.children && hasMatchingDescendant(...)`
only tests that the `children` field is present (an empty array is truthy),
which `Option.isSome` models. -/
def keepChild (searchQuery : List Char) (child : RepoTree) : Bool :=
  searchQuery.isEmpty
  || selfMatch searchQuery child
  || (child.children.isSome && hasMatchingDescendant child searchQuery)

/-- Definition of `filteredChildren = node.children?.filter(child => ...)` from
TreeNode.tsx lines 44-49; `none` when the node has no `children` field. -/
def filteredChildren (searchQuery : List Char) (node : RepoTree) : Option (List RepoTree) :=
  node.children.map (List.filter (keepChild searchQuery))

mutual

/-- The paths rendered by `TreeNode` under search query `searchQuery`,
assuming every directory is expanded: the node itself is always rendered;
its children block is rendered only when `isDirectory && hasChildren`
(TreeNode.tsx line 190), and then exactly the filtered children recurse. -/
def visiblePaths : List Char → RepoTree → List (List Char)
  | _, .mk p _ _ _ _ _ none => [p]
  | searchQuery, .mk p _ ty _ _ _ (some cs) =>
    p :: (if ty = "directory".data ∧ 0 < cs.length then visibleForest searchQuery cs else [])

/-- Renders a children array: each child surviving the filter predicate is
rendered recursively (this is `filteredChildren?.map(...)` fused with the
filter). -/
def visibleForest : List Char → List RepoTree → List (List Char)
  | _, [] => []
  | searchQuery, c :: cs =>
    (if keepChild searchQuery c then visiblePaths searchQuery c else [])
    ++ visibleForest searchQuery cs

end

/-- Node `c` is one of the entries of the `children` array of `t`. -/
def IsChildOf (c t : RepoTree) : Prop :=
  ∃ cs, t.children = some cs ∧ c ∈ cs

/-- Node `m` is `t` itself or sits somewhere below `t` in the tree. -/
inductive DescOf : RepoTree → RepoTree → Prop where
  | refl (t : RepoTree) : DescOf t t
  | step {m c t : RepoTree} : DescOf m c → IsChildOf c t → DescOf m t

/-- The `Job` interface of JobProgress.tsx: `job_id`, `state` (a raw string:
"queued", "running", "completed", "failed"), `progress` (a number in [0,1],
modelled as `ℚ`) and optional `message`. -/
structure Job where
  job_id : String
  state : String
  progress : ℚ
  message : Option String

/-- Outcome of one `fetch` as JobProgress.tsx observes it: the promise
rejects (`netError`), it resolves with `!response.ok` (`httpError`), or it
resolves ok and the body parses to a payload. -/
inductive FetchResult (α : Type) : Type where
  | netError : FetchResult α
  | httpError (status : Nat) : FetchResult α
  | ok (payload : α) : FetchResult α

/-- Function `getNextPollInterval` from JobProgress.tsx lines 39-45, a function of the
already-incremented `pollCount`. -/
def getNextPollInterval (pollCount : Nat) : Nat :=
  if pollCount < 3 then 500
  else if pollCount < 10 then 1000
  else if pollCount < 20 then 2000
  else 5000

/-- The environment one invocation of `pollJob` runs against, `τ` being the
type of the fetched tree payload.  The three `active*` fields are the values
the closure variable `isActive` has at the three points where `pollJob`
(re)gains control: on entry, after the status request settles, and after the
tree request settles.  Cleanup only ever sets `isActive := false`, so in any
real run `activeAtEntry ≥ activeAfterStatus ≥ activeAfterTree`. -/
structure PollEnv (τ : Type) where
  activeAtEntry : Bool
  activeAfterStatus : Bool
  activeAfterTree : Bool
  statusResponse : FetchResult Job
  treeResponse : FetchResult τ

/-- Everything one invocation of `pollJob` does that is observable by the
component or the caller: the final value of `pollCount`, the `setCurrentJob`
argument (if called), how many tree fetches were issued, the `onComplete`
argument (if called), the `onError` argument (if called), and the delay of
the `setTimeout(pollJob, ...)` it scheduled (if any).  `setElapsedTime` is a
pure wall-clock display update and is not modelled. -/
structure PollEffects (τ : Type) where
  pollCount : Nat
  setJob : Option Job
  treeFetches : Nat
  completedWith : Option τ
  erroredWith : Option String
  nextDelay : Option Nat

/-- The generic message of the `catch` block in JobProgress.tsx line 98. -/
def statusCheckFailed : String := "Failed to check job status"

/-- The fallback of `onError(updatedJob.message || "Analysis failed")`. -/
def analysisFailed : String := "Analysis failed"

/-- The no-observable-effect outcome (early `return`). -/
def noEffects (τ : Type) (pollCount : Nat) : PollEffects τ :=
  ⟨pollCount, none, 0, none, none, none⟩

/-- One invocation of `pollJob` (JobProgress.tsx lines 47-101), as a pure
function of the incoming `pollCount` and the environment.  Control flow is
transcribed branch by branch:
* `if (!isActive) return` on entry;
* `pollCount++`, then the status fetch; a rejected promise or a non-ok
  response throws into the `catch`, whose `onError` is gated by the
  `isActive` value current at that moment (`activeAfterStatus`);
* `if (!isActive) return` after the status response, then `setCurrentJob`;
* `state === "completed"`: one tree fetch; a failure there throws into the
  same `catch` (gated by `activeAfterTree`); on success
  `if (isActive) onComplete(tree)`; no next poll is scheduled;
* `state === "failed"`: `onError(message || "Analysis failed")` (the gate
  `if (isActive)` is true here, synchronously unchanged since the check
  above); no next poll;
* `state === "queued" || state === "running"`: schedule the next poll after
  `getNextPollInterval()` of the incremented count (the `isActive &&` in
  that condition is likewise still true synchronously);
* any other state: stop silently. -/
def pollStep (τ : Type) (pollCount : Nat) (env : PollEnv τ) : PollEffects τ :=
  if env.activeAtEntry = false then noEffects τ pollCount else
  let pc := pollCount + 1
  match env.statusResponse with
  | .netError =>
    { pollCount := pc, setJob := none, treeFetches := 0, completedWith := none,
      erroredWith := if env.activeAfterStatus then some statusCheckFailed else none,
      nextDelay := none }
  | .httpError _ =>
    { pollCount := pc, setJob := none, treeFetches := 0, completedWith := none,
      erroredWith := if env.activeAfterStatus then some statusCheckFailed else none,
      nextDelay := none }
  | .ok updatedJob =>
    if env.activeAfterStatus = false then noEffects τ pc
    else if updatedJob.state = "completed" then
      match env.treeResponse with
      | .ok treeData =>
        { pollCount := pc, setJob := some updatedJob, treeFetches := 1,
          completedWith := if env.activeAfterTree then some treeData else none,
          erroredWith := none, nextDelay := none }
      | .netError =>
        { pollCount := pc, setJob := some updatedJob, treeFetches := 1,
          completedWith := none,
          erroredWith := if env.activeAfterTree then some statusCheckFailed else none,
          nextDelay := none }
      | .httpError _ =>
        { pollCount := pc, setJob := some updatedJob, treeFetches := 1,
          completedWith := none,
          erroredWith := if env.activeAfterTree then some statusCheckFailed else none,
          nextDelay := none }
    else if updatedJob.state = "failed" then
      { pollCount := pc, setJob := some updatedJob, treeFetches := 0,
        completedWith := none,
        erroredWith := some (updatedJob.message.getD analysisFailed),
        nextDelay := none }
    else if updatedJob.state = "queued" ∨ updatedJob.state = "running" then
      { pollCount := pc, setJob := some updatedJob, treeFetches := 0,
        completedWith := none, erroredWith := none,
        nextDelay := some (getNextPollInterval pc) }
    else
      { pollCount := pc, setJob := some updatedJob, treeFetches := 0,
        completedWith := none, erroredWith := none, nextDelay := none }

/-- The mutable closure state threaded between invocations of `pollJob`:
the poll counter and the component's `currentJob`. -/
structure RunState where
  pollCount : Nat
  currentJob : Option Job

/-- Applies one poll's effects to the run state. -/
def applyEffects (τ : Type) (s : RunState) (eff : PollEffects τ) : RunState :=
  ⟨eff.pollCount, match eff.setJob with | some j => some j | none => s.currentJob⟩

/-- Runs `pollJob` repeatedly, one environment per invocation, stopping as
the code does when an invocation schedules no next poll.  Returns the final
closure state and the effects of each invocation that ran. -/
def runPolls (τ : Type) : RunState → List (PollEnv τ) → RunState × List (PollEffects τ)
  | s, [] => (s, [])
  | s, e :: es =>
    let eff := pollStep τ s.pollCount e
    let s' := applyEffects τ s eff
    match eff.nextDelay with
    | none => (s', [eff])
    | some _ =>
      let r := runPolls τ s' es
      (r.1, eff :: r.2)

/-- The value of `currentJob` after each poll of a run, starting from
`cur`. -/
def displayedStates (τ : Type) : Option Job → List (PollEffects τ) → List (Option Job)
  | _, [] => []
  | cur, eff :: effs =>
    let cur' := match eff.setJob with | some j => some j | none => cur
    cur' :: displayedStates τ cur' effs

/-- An environment for a poll that runs with the channel fully live and the
status request answering `job`. -/
def steadyEnv (τ : Type) (job : Job) : PollEnv τ :=
  ⟨true, true, true, .ok job, .netError⟩

/-- Function `toggleExpanded` from RepoExplorer.tsx lines 53-61: copy the set, delete
the path if present, otherwise add it. -/
def toggleExpanded (expandedNodes : Finset String) (path : String) : Finset String :=
  if path ∈ expandedNodes then expandedNodes.erase path else insert path expandedNodes

/-- The four state variables of `RepoAnalyzer` (RepoAnalyzer.tsx lines
26-29). -/
structure AnalyzerState (τ : Type) where
  currentJob : Option Job
  repoTree : Option τ
  completedJobId : Option String
  error : Option String

/-- The four event handlers of `RepoAnalyzer`. -/
inductive AnalyzerEvent (τ : Type) : Type where
  | analysisStart (job : Job)
  | jobComplete (tree : τ)
  | jobError (message : String)
  | reset

/-- JS `x || null` on an optional string: `null`/`undefined` and the empty
string are falsy. -/
def orNull : Option String → Option String
  | none => none
  | some s => if s = "" then none else some s

/-- The event handlers of RepoAnalyzer.tsx lines 31-53, each transcribed
setter by setter.  `handleJobComplete` reads `currentJob?.job_id || null`
from the pre-update state before clearing `currentJob`;
`handleAnalysisStart` does not touch `completedJobId`, and `handleError`
does not touch `repoTree` or `completedJobId`. -/
def handleEvent (τ : Type) : AnalyzerState τ → AnalyzerEvent τ → AnalyzerState τ
  | s, .analysisStart job =>
    { currentJob := some job, repoTree := none,
      completedJobId := s.completedJobId, error := none }
  | s, .jobComplete tree =>
    { currentJob := none, repoTree := some tree,
      completedJobId := orNull (s.currentJob.map Job.job_id), error := s.error }
  | s, .jobError message =>
    { currentJob := none, repoTree := s.repoTree,
      completedJobId := s.completedJobId, error := some message }
  | _, .reset =>
    { currentJob := none, repoTree := none, completedJobId := none, error := none }

/-- A token of the regular expression `new RegExp(searchQuery, 'gi')` that
`highlightMatch` (TreeNode.tsx lines 52-65) builds from the raw, unescaped
query: an ordinary character is a literal, `.` is the any-character
wildcard.  (Queries using other regex metacharacters are outside this
model; the theorems below never instantiate it on them.) -/
inductive RegexTok : Type where
  | lit (c : Char)
  | dot

/-- Compile the raw query string into regex tokens, exactly as the unescaped
`new RegExp(searchQuery, 'gi')` reads it. -/
def compileQuery (searchQuery : List Char) : List RegexTok :=
  searchQuery.map (fun c => if c = '.' then RegexTok.dot else RegexTok.lit c)

/-- One token against one character, under the case-insensitive `i` flag. -/
def tokMatches : RegexTok → Char → Bool
  | .dot, _ => true
  | .lit a, c => a.toLower == c.toLower

/-- The pattern matches a prefix of `s`. -/
def matchHere : List RegexTok → List Char → Bool
  | [], _ => true
  | _ :: _, [] => false
  | t :: p, c :: s => tokMatches t c && matchHere p s

/-- Search in the style of `regex.test`: the pattern matches starting at some position
of `s`. -/
def regexSearch (p : List RegexTok) (s : List Char) : Bool :=
  s.tails.any (matchHere p)

/-- Whether `highlightMatch(text)` marks anything: with an empty query it
returns the text unmarked (`if (!searchQuery) return text`); otherwise it
splits on `new RegExp('(' + searchQuery + ')', 'gi')` and wraps the parts
the regex matches, so some fragment is marked exactly when the query, read
as a regex, matches somewhere in the text. -/
def highlightOccurs (searchQuery text : List Char) : Bool :=
  if searchQuery.isEmpty then false
  else regexSearch (compileQuery searchQuery) text

/-- The JS regex metacharacters; a query avoiding them is read by the regex
engine as a plain literal string. -/
def regexMeta (c : Char) : Bool :=
  c ∈ ['\\', '^', '$', '.', '*', '+', '?', '(', ')', '[', ']', '\x7b', '\x7d', '|']

/-- A job snapshot in state "running" with the given progress. -/
def jobRunning (progress : ℚ) : Job :=
  ⟨"job-1", "running", progress, none⟩

/-- A job snapshot in state "completed". -/
def jobCompleted : Job :=
  ⟨"job-1", "completed", 1, none⟩

/-- A job snapshot in state "failed" carrying a message. -/
def jobFailed : Job :=
  ⟨"job-1", "failed", 1/2, some "boom"⟩

/-- A job snapshot in state "queued" with the given progress. -/
def jobQueued (progress : ℚ) : Job :=
  ⟨"job-1", "queued", progress, none⟩

/-- Whether the status response of an environment is a snapshot that keeps
the run going: an ok response whose state is "queued" or "running" (the
scheduling condition of JobProgress.tsx line 90). -/
def schedulingSnapshot (τ : Type) (e : PollEnv τ) : Bool :=
  match e.statusResponse with
  | .ok j => j.state == "queued" || j.state == "running"
  | .netError => false
  | .httpError _ => false

/-- An environment for a poll during which the channel stays live through
the status continuation and whose snapshot reports the job still queued or
running — the shape of every poll in a run where the job never
terminates. -/
def liveEnv (τ : Type) (e : PollEnv τ) : Prop :=
  e.activeAtEntry = true ∧ e.activeAfterStatus = true
    ∧ schedulingSnapshot τ e = true

instance liveEnvDecidable (τ : Type) (e : PollEnv τ) : Decidable (liveEnv τ e) :=
  inferInstanceAs (Decidable (e.activeAtEntry = true ∧ e.activeAfterStatus = true
    ∧ schedulingSnapshot τ e = true))

/-- A concrete 21-poll run mixing "queued" and "running" snapshots with
varying progress, all while the channel stays live. -/
def c4envs : List (PollEnv Unit) :=
  ⟨true, true, true, .ok (jobQueued 0), .netError⟩ ::
  ⟨true, true, false, .ok (jobQueued (1/10)), .netError⟩ ::
  List.replicate 19 (steadyEnv Unit (jobRunning (1/2)))

/-- The leaf `file1` of the spec's filter scenario. -/
def exFile1 : RepoTree :=
  .mk "root/dirA/file1".data "file1".data "file".data none none none none

/-- The leaf `file2` of the spec's filter scenario. -/
def exFile2 : RepoTree :=
  .mk "root/file2".data "file2".data "file".data none none none none

/-- The directory `dirA{file1}` of the spec's filter scenario. -/
def exDirA : RepoTree :=
  .mk "root/dirA".data "dirA".data "directory".data none none none (some [exFile1])

/-- The root `root{dirA{file1}, file2}` of the spec's filter scenario. -/
def exRoot : RepoTree :=
  .mk "root".data "root".data "directory".data none none none (some [exDirA, exFile2])

theorem anyMatchingChild_eq_any (cs : List RepoTree) (q : List Char) :
    anyMatchingChild cs q
      = cs.any (fun c => selfMatch q c || hasMatchingDescendant c q) := by
  induction cs with
  | nil => rfl
  | cons c cs ih => simp [anyMatchingChild, ih]

theorem hmd_of_child (q : List Char) {c b : RepoTree} (h : IsChildOf c b)
    (hc : (selfMatch q c || hasMatchingDescendant c q) = true) :
    hasMatchingDescendant b q = true := by
  obtain ⟨cs, hcs, hmem⟩ := h
  cases b with
  | mk p n ty la sz su ch =>
    cases ch with
    | none => simp [RepoTree.children] at hcs
    | some cs' =>
      simp only [RepoTree.children, Option.some.injEq] at hcs
      subst hcs
      simp only [hasMatchingDescendant, anyMatchingChild_eq_any]
      exact List.any_eq_true.mpr ⟨c, hmem, hc⟩

theorem hmd_of_desc (q : List Char) {m c : RepoTree} (hd : DescOf m c) :
    ∀ {b : RepoTree}, IsChildOf c b → selfMatch q m = true →
      hasMatchingDescendant b q = true := by
  induction hd with
  | refl =>
    intro b hcb hm
    exact hmd_of_child q hcb (by simp [hm])
  | step h1 h2 ih =>
    intro b hcb hm
    have ht := ih h2 hm
    exact hmd_of_child q hcb (by simp [ht])

/-- Claim C8: with the empty query the filter is the identity on every
node's children sequence, and the highlighter marks nothing. -/
theorem claim_C8 (t : RepoTree) (text : List Char) :
    filteredChildren [] t = t.children ∧ highlightOccurs [] text = false := by
  constructor
  · unfold filteredChildren
    cases h : t.children with
    | none => rfl
    | some cs =>
      have hfix : List.filter (keepChild []) cs = cs :=
        List.filter_eq_self.mpr (fun a _ => by simp [keepChild])
      simp [hfix]
  · rfl

theorem toggleExpanded_involutive (s : Finset String) (p : String) :
    toggleExpanded (toggleExpanded s p) p = s := by
  by_cases h : p ∈ s
  · simp only [toggleExpanded]
    rw [if_pos h, if_neg (Finset.not_mem_erase p s), Finset.insert_erase h]
  · simp only [toggleExpanded]
    rw [if_neg h, if_pos (Finset.mem_insert_self p s), Finset.erase_insert h]

/-- Claim C9: toggling expansion an even number of times restores the
expansion state exactly; a present path is removed by one toggle and an
absent one inserted. -/
theorem claim_C9 (s : Finset String) (p : String) (n : ℕ) :
    (fun t => toggleExpanded t p)^[2 * n] s = s
      ∧ (p ∈ s ↔ p ∉ toggleExpanded s p) := by
  constructor
  · induction n with
    | zero => rfl
    | succ k ih =>
      have h2 : 2 * (k + 1) = 2 * k + 2 := by ring
      rw [h2, Function.iterate_add_apply]
      have hfix : (fun t => toggleExpanded t p)^[2] s = s :=
        toggleExpanded_involutive s p
      rw [hfix, ih]
  · by_cases h : p ∈ s
    · simp [toggleExpanded, h, Finset.not_mem_erase]
    · simp [toggleExpanded, h]

/-- Claim C10: after every `RepoAnalyzer` event handler at most one of
`currentJob` and `repoTree` is non-null (so the progress view and the
explorer view are never both rendered), and starting a new analysis clears
the previous tree and error. -/
theorem claim_C10 (τ : Type) (s : AnalyzerState τ) (e : AnalyzerEvent τ) (j : Job) :
    ((handleEvent τ s e).currentJob = none ∨ (handleEvent τ s e).repoTree = none)
      ∧ (handleEvent τ s (.analysisStart j)).repoTree = none
      ∧ (handleEvent τ s (.analysisStart j)).error = none := by
  refine ⟨?_, rfl, rfl⟩
  cases e with
  | analysisStart job => exact Or.inr rfl
  | jobComplete tree => exact Or.inl rfl
  | jobError message => exact Or.inl rfl
  | reset => exact Or.inl rfl

/-- Claim C3: for any tree and any non-empty query, search-filter
visibility is upward-closed — whenever a node `m` at or below child `b`
matches the query by name or summary, `b` survives the filter applied to
its parent `p`'s children; and on the scenario tree
`root(dirA(file1), file2)` with query "file1" the visible set is exactly
root, dirA, file1. -/
theorem claim_C3 :
    (∀ (q : List Char) (p b m : RepoTree), q ≠ [] → IsChildOf b p →
        DescOf m b → selfMatch q m = true →
        b ∈ (filteredChildren q p).getD [])
      ∧ visiblePaths "file1".data exRoot
          = ["root".data, "root/dirA".data, "root/dirA/file1".data] := by
  constructor
  · intro q p b m _ hbp hdesc hm
    obtain ⟨cs, hcs, hmem⟩ := hbp
    have hkeep : keepChild q b = true := by
      cases hdesc with
      | refl => simp [keepChild, hm]
      | step h1 h2 =>
        have hhmd := hmd_of_desc q h1 h2 hm
        obtain ⟨cs', hcs', _⟩ := h2
        simp [keepChild, hhmd, hcs']
    simp only [filteredChildren, hcs, Option.map_some', Option.getD_some]
    exact List.mem_filter.mpr ⟨hmem, hkeep⟩
  · rfl

theorem claim_C3_witness :
    exDirA ∈ (filteredChildren "file1".data exRoot).getD [] :=
  claim_C3.1 "file1".data exRoot exDirA exFile1 (by decide)
    ⟨[exDirA, exFile2], rfl, List.mem_cons_self exDirA [exFile2]⟩
    (DescOf.step (DescOf.refl exFile1) ⟨[exFile1], rfl, List.mem_cons_self exFile1 []⟩)
    (by decide)

/-- Claim C7 counterexample: the claim asserts highlighting and the filter's
substring predicate agree on all inputs, including queries containing '.';
but on query "." and text "a" the highlighter (which feeds the raw query to
`new RegExp`, where '.' matches any character) marks the text while the
substring predicate rejects it. -/
theorem claim_C7_counterexample :
    highlightOccurs ['.'] ['a'] = true
      ∧ textMatches ['.'] ['a'] = false
      ∧ highlightOccurs ['.'] ['a'] ≠ textMatches ['.'] ['a'] := by
  refine ⟨rfl, rfl, ?_⟩
  decide

theorem matchHere_compile_eq (q : List Char) (hq : ∀ c ∈ q, c ≠ '.') :
    ∀ t : List Char, matchHere (compileQuery q) t = (lower q).isPrefixOf (lower t) := by
  induction q with
  | nil => intro t; simp [compileQuery, matchHere, lower]
  | cons c q ih =>
    intro t
    have hc : c ≠ '.' := hq c (List.mem_cons_self c q)
    have hq' : ∀ d ∈ q, d ≠ '.' := fun d hd => hq d (List.mem_cons_of_mem c hd)
    have hcomp : compileQuery (c :: q) = RegexTok.lit c :: compileQuery q := by
      simp [compileQuery, hc]
    cases t with
    | nil => simp [hcomp, matchHere, lower]
    | cons d t =>
      rw [hcomp]
      simp only [matchHere]
      rw [ih hq' t]
      rfl

/-- Claim C7 (amended): the claim fails for queries containing regex
metacharacters (see the counterexample); what holds is that for every
non-empty query free of regex metacharacters, the highlighter marks some
text exactly when the filter's case-insensitive substring predicate accepts
that text — on such queries highlighting and filtering are the same
predicate. -/
theorem claim_C7 (q text : List Char) (hq : q ≠ [])
    (hmeta : ∀ c ∈ q, regexMeta c = false) :
    highlightOccurs q text = textMatches q text := by
  have hdot : ∀ c ∈ q, c ≠ '.' := by
    intro c hc heq
    have := hmeta c hc
    rw [heq] at this
    simp [regexMeta] at this
  have hne : q.isEmpty = false := by
    cases q with
    | nil => exact absurd rfl hq
    | cons c q => rfl
  have h1 : highlightOccurs q text = regexSearch (compileQuery q) text := by
    unfold highlightOccurs
    rw [hne]
    rfl
  rw [h1]
  simp only [regexSearch, textMatches, includesSub, lower, List.map_tails,
    List.any_map]
  congr 1
  funext t
  simp only [Function.comp_apply]
  have := matchHere_compile_eq q hdot t
  simp only [lower] at this
  exact this

theorem claim_C7_witness :
    highlightOccurs "file".data "App/File1.ts".data
      = textMatches "file".data "App/File1.ts".data :=
  claim_C7 "file".data "App/File1.ts".data (by decide) (by decide)

/-- Claim C1 counterexample: the claim asserts the displayed progress stays
at the maximum seen so far (snapshots 0.5, 0.3, 0.9 display as 0.5, 0.5,
0.9); but `pollJob` stores each snapshot verbatim with `setCurrentJob`, so
the run displays 0.5, 0.3, 0.9 — the second displayed value 3/10 is an
actual decrease below the earlier 1/2. -/
theorem claim_C1_counterexample :
    (displayedStates Unit none
        (runPolls Unit ⟨0, none⟩
          [steadyEnv Unit (jobRunning (1/2)), steadyEnv Unit (jobRunning (3/10)),
           steadyEnv Unit (jobRunning (9/10))]).2).map (Option.map Job.progress)
      = [some (1/2), some (3/10), some (9/10)]
      ∧ ((3 : ℚ)/10 < 1/2) ∧ ((3 : ℚ)/10 ≠ 1/2) :=
  ⟨rfl, by norm_num, by norm_num⟩

/-- Claim C1 (amended): displayed progress is not clamped; the controller is
last-write-wins — every snapshot applied while the channel is live replaces
the displayed job verbatim (`setCurrentJob(updatedJob)`), so a stale
lower-progress snapshot lowers the displayed progress. -/
theorem claim_C1 (τ : Type) (pc : Nat) (a2 : Bool) (tr : FetchResult τ) (j : Job) :
    (pollStep τ pc ⟨true, true, a2, .ok j, tr⟩).setJob = some j := by
  cases tr <;>
    (simp only [pollStep]
     split_ifs <;> simp_all [noEffects])

/-- Claim C5: on a "completed" snapshot the channel issues exactly one tree
fetch and, when it succeeds, delivers the terminal result through
`onComplete` with the tree and schedules no further poll; on a "failed"
snapshot it delivers the terminal error immediately — zero tree fetches —
and schedules no further poll. -/
theorem claim_C5 (τ : Type) (pc : Nat) (j : Job) (tr : FetchResult τ) :
    (∀ t : τ, j.state = "completed" → tr = .ok t →
        pollStep τ pc ⟨true, true, true, .ok j, tr⟩
          = ⟨pc + 1, some j, 1, some t, none, none⟩)
      ∧ (j.state = "failed" →
        pollStep τ pc ⟨true, true, true, .ok j, tr⟩
          = ⟨pc + 1, some j, 0, none, some (j.message.getD analysisFailed), none⟩) := by
  constructor
  · intro t hst htr
    subst htr
    simp [pollStep, hst]
  · intro hst
    cases tr <;> simp [pollStep, hst]

theorem claim_C5_witness :
    pollStep Unit 4 ⟨true, true, true, .ok jobCompleted, .ok ()⟩
        = ⟨5, some jobCompleted, 1, some (), none, none⟩
      ∧ pollStep Unit 4 ⟨true, true, true, .ok jobFailed, .netError⟩
        = ⟨5, some jobFailed, 0, none, some "boom", none⟩ :=
  ⟨(claim_C5 Unit 4 jobCompleted (.ok ())).1 () rfl rfl,
   (claim_C5 Unit 4 jobFailed .netError).2 rfl⟩

/-- Claim C6: every transport-level failure — a rejected status request, a
non-ok HTTP status response, or a failed/non-ok tree fetch for a completed
job — reaches the caller as the single generic `onError("Failed to check
job status")`, with no retry at this layer: no next poll is scheduled and no
completion is delivered. -/
theorem claim_C6 (τ : Type) (pc : Nat) (a2 : Bool) (sr : FetchResult Job)
    (tr : FetchResult τ) :
    (sr = .netError →
        pollStep τ pc ⟨true, true, a2, sr, tr⟩
          = ⟨pc + 1, none, 0, none, some statusCheckFailed, none⟩)
      ∧ (∀ st, sr = .httpError st →
        pollStep τ pc ⟨true, true, a2, sr, tr⟩
          = ⟨pc + 1, none, 0, none, some statusCheckFailed, none⟩)
      ∧ (∀ j, j.state = "completed" → (tr = .netError ∨ ∃ st, tr = .httpError st) →
        pollStep τ pc ⟨true, true, true, .ok j, tr⟩
          = ⟨pc + 1, some j, 1, none, some statusCheckFailed, none⟩) := by
  refine ⟨?_, ?_, ?_⟩
  · intro h; subst h; simp [pollStep]
  · intro st h; subst h; simp [pollStep]
  · intro j hst htr
    rcases htr with h | ⟨st, h⟩ <;> subst h <;> simp [pollStep, hst]

theorem claim_C6_witness :
    pollStep Unit 2 ⟨true, true, true, .netError, (.netError : FetchResult Unit)⟩
        = ⟨3, none, 0, none, some statusCheckFailed, none⟩
      ∧ pollStep Unit 2 ⟨true, true, true, .httpError 500, (.netError : FetchResult Unit)⟩
        = ⟨3, none, 0, none, some statusCheckFailed, none⟩
      ∧ pollStep Unit 2 ⟨true, true, true, .ok jobCompleted, (.httpError 404 : FetchResult Unit)⟩
        = ⟨3, some jobCompleted, 1, none, some statusCheckFailed, none⟩ :=
  ⟨(claim_C6 Unit 2 true .netError .netError).1 rfl,
   (claim_C6 Unit 2 true (.httpError 500) .netError).2.1 500 rfl,
   (claim_C6 Unit 2 true (.ok jobCompleted) (.httpError 404)).2.2 jobCompleted rfl
     (Or.inr ⟨404, rfl⟩)⟩

/-- Claim C2: the liveness flag gates every asynchronous continuation of
`pollJob`.  If the channel was closed before the status continuation runs
(`activeAfterStatus = false`, hence also `activeAfterTree = false`, since
cleanup never resurrects the flag), no state mutation, completion,
error callback or scheduling happens; and even when only the tree-fetch
continuation runs after close (`activeAfterTree = false`), neither
`onComplete` nor the catch-block `onError` fires. -/
theorem claim_C2 (τ : Type) (pc : Nat) (a0 a1 a2 : Bool) (sr : FetchResult Job)
    (tr : FetchResult τ) :
    (a1 = false → a2 = false →
        (pollStep τ pc ⟨a0, a1, a2, sr, tr⟩).setJob = none
          ∧ (pollStep τ pc ⟨a0, a1, a2, sr, tr⟩).completedWith = none
          ∧ (pollStep τ pc ⟨a0, a1, a2, sr, tr⟩).erroredWith = none
          ∧ (pollStep τ pc ⟨a0, a1, a2, sr, tr⟩).nextDelay = none)
      ∧ (a2 = false → (pollStep τ pc ⟨a0, a1, a2, sr, tr⟩).completedWith = none)
      ∧ (∀ j, sr = .ok j → j.state = "completed" → a2 = false →
        (pollStep τ pc ⟨a0, a1, a2, sr, tr⟩).completedWith = none
          ∧ (pollStep τ pc ⟨a0, a1, a2, sr, tr⟩).erroredWith = none) := by
  refine ⟨?_, ?_, ?_⟩
  · intro h1 h2
    subst h1; subst h2
    cases a0 <;> cases sr <;> simp [pollStep, noEffects]
  · intro h2
    subst h2
    cases a0 <;> cases a1 <;> cases sr <;> cases tr <;>
      (simp only [pollStep, noEffects]
       split_ifs <;> rfl)
  · intro j hsr hst h2
    subst hsr; subst h2
    cases a0 <;> cases a1 <;> cases tr <;> simp [pollStep, noEffects, hst]

theorem claim_C2_witness :
    (pollStep Unit 7 ⟨true, false, false, .ok (jobRunning (1/2)), .netError⟩).setJob = none
      ∧ (pollStep Unit 7 ⟨true, false, false, .ok (jobRunning (1/2)), .netError⟩).completedWith = none
      ∧ (pollStep Unit 7 ⟨true, false, false, .ok (jobRunning (1/2)), .netError⟩).erroredWith = none
      ∧ (pollStep Unit 7 ⟨true, false, false, .ok (jobRunning (1/2)), .netError⟩).nextDelay = none :=
  (claim_C2 Unit 7 true false false (.ok (jobRunning (1/2))) .netError).1 rfl rfl

theorem pollStep_scheduling (τ : Type) (pc : Nat) (a2 : Bool) (tr : FetchResult τ)
    (j : Job) (hst : j.state = "queued" ∨ j.state = "running") :
    pollStep τ pc ⟨true, true, a2, .ok j, tr⟩
      = ⟨pc + 1, some j, 0, none, none, some (getNextPollInterval (pc + 1))⟩ := by
  rcases hst with h | h <;> simp [pollStep, h]

theorem runPolls_live_nextDelay (τ : Type) :
    ∀ (envs : List (PollEnv τ)) (c : Nat) (cj : Option Job),
      (∀ e ∈ envs, liveEnv τ e) →
      ∀ k : Nat, k < envs.length →
        (((runPolls τ ⟨c, cj⟩ envs).2.get? k).map (fun e => e.nextDelay))
          = some (some (getNextPollInterval (c + k + 1))) := by
  intro envs
  induction envs with
  | nil => intro c cj _ k hk; exact absurd hk (Nat.not_lt_zero k)
  | cons e es ih =>
    intro c cj hlive k hk
    obtain ⟨a0, a1, a2, sr, tr⟩ := e
    obtain ⟨h0, h1, hsched⟩ := hlive _ (List.mem_cons_self _ es)
    have h0' : a0 = true := h0
    have h1' : a1 = true := h1
    subst h0'; subst h1'
    cases sr with
    | netError => simp [schedulingSnapshot] at hsched
    | httpError st => simp [schedulingSnapshot] at hsched
    | ok j =>
      have hst : j.state = "queued" ∨ j.state = "running" := by
        simpa [schedulingSnapshot] using hsched
      simp only [runPolls, pollStep_scheduling τ c a2 tr j hst]
      cases k with
      | zero => simp
      | succ k' =>
        have hk' : k' < es.length := Nat.lt_of_succ_lt_succ hk
        have hrec := ih (c + 1) (some j)
          (fun x hx => hlive x (List.mem_cons_of_mem _ hx)) k' hk'
        have harith : c + 1 + k' + 1 = c + (k' + 1) + 1 := by omega
        rw [harith] at hrec
        simpa [List.get?_cons_succ, applyEffects] using hrec

/-- Claim C4: the adaptive polling schedule.  In every run in which each
status request answers, while the channel is live, with a snapshot still in
state "queued" or "running" — any mix, any progress values — the first
request is issued with no delay (the effect calls `pollJob()` directly) and
the delay scheduled after the (k+1)-th request is 0.5 s after each of
requests 1-2 (spacing the first 3 requests), 1 s after each of requests 3-9
(spacing the next 7 requests, 4-10), 2 s after each of requests 10-19
(spacing the next 10 requests, 11-20), and 5 s after every later
request. -/
theorem claim_C4 (τ : Type) (envs : List (PollEnv τ))
    (hlive : ∀ e ∈ envs, liveEnv τ e) (k : Nat) (hk : k < envs.length) :
    (((runPolls τ ⟨0, none⟩ envs).2.get? k).map (fun e => e.nextDelay))
      = some (some (if k < 2 then 500 else if k < 9 then 1000
          else if k < 19 then 2000 else 5000)) := by
  rw [runPolls_live_nextDelay τ envs 0 none hlive k hk]
  have hsched : getNextPollInterval (0 + k + 1)
      = (if k < 2 then 500 else if k < 9 then 1000
          else if k < 19 then 2000 else 5000) := by
    simp only [getNextPollInterval, Nat.zero_add]
    split_ifs <;> omega
  rw [hsched]

theorem claim_C4_witness :
    (((runPolls Unit ⟨0, none⟩ c4envs).2.get? 0).map (fun e => e.nextDelay))
        = some (some 500)
      ∧ (((runPolls Unit ⟨0, none⟩ c4envs).2.get? 5).map (fun e => e.nextDelay))
        = some (some 1000)
      ∧ (((runPolls Unit ⟨0, none⟩ c4envs).2.get? 19).map (fun e => e.nextDelay))
        = some (some 5000) :=
  ⟨claim_C4 Unit c4envs (by decide) 0 (by decide),
   claim_C4 Unit c4envs (by decide) 5 (by decide),
   claim_C4 Unit c4envs (by decide) 19 (by decide)⟩

end CodeAtlas
